import Mathlib

/-!
Verification of the Modbus RTU client (`ModbusClientRTU.cpp`).

The development shallowly embeds the data model and operations of the
client: the CRC engine, the request/response objects, the bounded request
queue, the send phase, the receive state machine's data path, and the
worker loop.  Machine integers are modelled as `Nat` with explicit
masking where the source relies on fixed-width behaviour.
-/

namespace EModbus

/-! ## CRC engine -/

/-- Modelled from the spec: `RTUCRC::calcCRC` is not under `src/` (only its
call sites are).  The spec fixes it as the stateless Modbus CRC-16 with the
reversed polynomial `0xA001`: one shift-register step takes the low bit,
shifts right by one and conditionally folds in `0xA001`. -/
def lstep (c : Nat) : Nat :=
  if c &&& 1 = 1 then (c >>> 1) ^^^ 0xA001 else c >>> 1

/-- One byte of the CRC computation: xor the byte into the register, then
run eight shift-register steps. -/
def crcStep (crc b : Nat) : Nat := lstep^[8] (crc ^^^ b)

/-- Modelled from the spec: `crc16(bytes) -> u16`, initial register value
`0xFFFF`, bytes folded in order. -/
def calcCRC (msg : List Nat) : Nat := msg.foldl crcStep 0xFFFF

/-! ## Basic facts about the shift-register step -/

theorem and_one_xor (x y : Nat) : (x ^^^ y) &&& 1 = (x &&& 1) ^^^ (y &&& 1) := by
  apply Nat.eq_of_testBit_eq
  intro i
  rw [Nat.testBit_and, Nat.testBit_xor, Nat.testBit_xor, Nat.testBit_and, Nat.testBit_and]
  cases x.testBit i <;> cases y.testBit i <;> cases (1 : Nat).testBit i <;> rfl

theorem shiftRight_xor (x y : Nat) : (x ^^^ y) >>> 1 = (x >>> 1) ^^^ (y >>> 1) := by
  apply Nat.eq_of_testBit_eq
  intro i
  rw [Nat.testBit_xor, Nat.testBit_shiftRight, Nat.testBit_shiftRight,
    Nat.testBit_shiftRight, Nat.testBit_xor]

theorem xor_left_comm (a b c : Nat) : a ^^^ (b ^^^ c) = b ^^^ (a ^^^ c) := by
  rw [← Nat.xor_assoc, Nat.xor_comm a b, Nat.xor_assoc]

theorem lstep_lin (x y : Nat) : lstep (x ^^^ y) = lstep x ^^^ lstep y := by
  unfold lstep
  rw [and_one_xor, shiftRight_xor, Nat.and_one_is_mod x, Nat.and_one_is_mod y]
  rcases Nat.mod_two_eq_zero_or_one x with hx | hx <;>
    rcases Nat.mod_two_eq_zero_or_one y with hy | hy <;>
    rw [hx, hy] <;>
    simp [Nat.xor_assoc, Nat.xor_comm, xor_left_comm]

theorem lstep_zero : lstep 0 = 0 := by decide

theorem lstep_lt {x : Nat} (h : x < 65536) : lstep x < 65536 := by
  have e : (65536 : Nat) = 2 ^ 16 := by norm_num
  have h1 : x >>> 1 < 65536 := by
    rw [Nat.shiftRight_one]
    omega
  have h2 : (x >>> 1) ^^^ 0xA001 < 65536 := by
    rw [e]
    rw [e] at h1
    exact Nat.xor_lt_two_pow h1 (by norm_num)
  unfold lstep
  split
  · exact h2
  · exact h1

theorem lstep_ker {x : Nat} (h : x < 65536) (h0 : lstep x = 0) : x = 0 := by
  unfold lstep at h0
  rw [Nat.and_one_is_mod] at h0
  rcases Nat.mod_two_eq_zero_or_one x with he | ho
  · rw [he] at h0
    simp only [Nat.zero_ne_one, if_false] at h0
    rw [Nat.shiftRight_one] at h0
    omega
  · rw [ho] at h0
    simp only [if_true, if_pos] at h0
    rw [Nat.xor_eq_zero, Nat.shiftRight_one] at h0
    omega

theorem lstepIter_lin (n x y : Nat) :
    lstep^[n] (x ^^^ y) = lstep^[n] x ^^^ lstep^[n] y := by
  induction n generalizing x y with
  | zero => rfl
  | succ m ih =>
    rw [Function.iterate_succ_apply, Function.iterate_succ_apply,
      Function.iterate_succ_apply, lstep_lin]
    exact ih (lstep x) (lstep y)

theorem lstepIter_lt {x : Nat} (n : Nat) (h : x < 65536) : lstep^[n] x < 65536 := by
  induction n with
  | zero => exact h
  | succ m ih =>
    rw [Function.iterate_succ_apply']
    exact lstep_lt ih

theorem lstepIter_zero (n : Nat) : lstep^[n] 0 = 0 := by
  induction n with
  | zero => rfl
  | succ m ih => rw [Function.iterate_succ_apply, lstep_zero, ih]

theorem lstepIter_ker {x : Nat} (n : Nat) (h : x < 65536) (h0 : lstep^[n] x = 0) :
    x = 0 := by
  induction n with
  | zero => exact h0
  | succ m ih =>
    rw [Function.iterate_succ_apply'] at h0
    exact ih (lstep_ker (lstepIter_lt m h) h0)

theorem lstepIter_ne_zero {x : Nat} (n : Nat) (h : x < 65536) (hx : x ≠ 0) :
    lstep^[n] x ≠ 0 :=
  fun h0 => hx (lstepIter_ker n h h0)

theorem crcStep_xor_right (c b e : Nat) :
    crcStep c (b ^^^ e) = crcStep c b ^^^ lstep^[8] e := by
  unfold crcStep
  rw [← lstepIter_lin]
  rw [Nat.xor_assoc]

theorem foldl_crcStep_xor (l : List Nat) (s d : Nat) :
    l.foldl crcStep (s ^^^ d) = l.foldl crcStep s ^^^ lstep^[8 * l.length] d := by
  induction l generalizing s d with
  | nil => simp
  | cons b t ih =>
    have hstep : crcStep (s ^^^ d) b = crcStep s b ^^^ lstep^[8] d := by
      unfold crcStep
      rw [← lstepIter_lin]
      have hx : (s ^^^ d) ^^^ b = (s ^^^ b) ^^^ d := by
        rw [Nat.xor_assoc, Nat.xor_assoc, Nat.xor_comm d b]
      rw [hx]
    rw [List.foldl_cons, hstep, ih, List.foldl_cons]
    rw [← Function.iterate_add_apply]
    have : 8 * t.length + 8 = 8 * (b :: t).length := by
      simp [List.length_cons]
      ring
    rw [this]

/-- The CRC of a message with one byte xor-perturbed differs from the CRC of
the original message by an iterated shift-register image of the perturbation. -/
theorem calcCRC_perturb (m1 m2 : List Nat) (b e : Nat) :
    calcCRC (m1 ++ (b ^^^ e) :: m2) =
      calcCRC (m1 ++ b :: m2) ^^^ lstep^[8 * m2.length + 8] e := by
  unfold calcCRC
  rw [List.foldl_append, List.foldl_append, List.foldl_cons, List.foldl_cons]
  rw [crcStep_xor_right, foldl_crcStep_xor]
  rw [← Function.iterate_add_apply]

theorem xor_ne_self {a d : Nat} (hd : d ≠ 0) : a ^^^ d ≠ a := by
  intro h
  apply hd
  have : a ^^^ d ^^^ a = a ^^^ a := by rw [h]
  rwa [Nat.xor_comm a d, Nat.xor_assoc, Nat.xor_self, Nat.xor_zero] at this

/-- Flipping one bit of one byte always changes the CRC. -/
theorem calcCRC_flip_ne (m1 m2 : List Nat) (b : Nat) {e : Nat}
    (he : e < 65536) (he0 : e ≠ 0) :
    calcCRC (m1 ++ (b ^^^ e) :: m2) ≠ calcCRC (m1 ++ b :: m2) := by
  rw [calcCRC_perturb]
  exact xor_ne_self (lstepIter_ne_zero _ he he0)

/-! ## Byte splitting and recombination (little-endian CRC on the wire) -/

theorem testBit_255 (i : Nat) : Nat.testBit 255 i = decide (i < 8) := by
  simpa using Nat.testBit_two_pow_sub_one 8 i

theorem testBit_byte_high {x i : Nat} (hx : x < 256) (hi : 8 ≤ i) :
    x.testBit i = false := by
  have h2 : x < 2 ^ i := by
    calc x < 2 ^ 8 := by norm_num at hx ⊢; omega
    _ ≤ 2 ^ i := Nat.pow_le_pow_right (by norm_num) hi
  exact Nat.testBit_lt_two_pow h2

theorem and_255_lt (x : Nat) : x &&& 255 < 256 :=
  Nat.lt_succ_of_le Nat.and_le_right

theorem and_255_eq_self {x : Nat} (h : x < 256) : x &&& 255 = x := by
  apply Nat.eq_of_testBit_eq
  intro i
  rw [Nat.testBit_and, testBit_255]
  by_cases hi : i < 8
  · simp [hi]
  · have hb : x.testBit i = false := testBit_byte_high h (by omega)
    simp [hi, hb]

theorem or_shift_low {lo : Nat} (hi : Nat) (h : lo < 256) :
    (lo ||| (hi <<< 8)) &&& 255 = lo := by
  apply Nat.eq_of_testBit_eq
  intro i
  rw [Nat.testBit_and, Nat.testBit_or, Nat.testBit_shiftLeft, testBit_255]
  by_cases hi8 : i < 8
  · have h8 : ¬ (8 ≤ i) := by omega
    simp [hi8, h8]
  · have hb : lo.testBit i = false := testBit_byte_high h (by omega)
    simp [hi8, hb]

theorem or_shift_high {lo : Nat} (hi : Nat) (h : lo < 256) :
    (lo ||| (hi <<< 8)) >>> 8 = hi := by
  apply Nat.eq_of_testBit_eq
  intro i
  rw [Nat.testBit_shiftRight, Nat.testBit_or, Nat.testBit_shiftLeft]
  have hlo : lo.testBit (8 + i) = false := testBit_byte_high h (by omega)
  have h8 : (8 : Nat) ≤ 8 + i := by omega
  have hsub : 8 + i - 8 = i := by omega
  simp [hlo, h8, hsub]

theorem or_shift_inj {lo lo2 hi hi2 : Nat} (h : lo < 256) (h2 : lo2 < 256)
    (he : lo ||| (hi <<< 8) = lo2 ||| (hi2 <<< 8)) : lo = lo2 ∧ hi = hi2 := by
  constructor
  · have h1 : (lo ||| (hi <<< 8)) &&& 255 = (lo2 ||| (hi2 <<< 8)) &&& 255 := by rw [he]
    rwa [or_shift_low hi h, or_shift_low hi2 h2] at h1
  · have h1 : (lo ||| (hi <<< 8)) >>> 8 = (lo2 ||| (hi2 <<< 8)) >>> 8 := by rw [he]
    rwa [or_shift_high hi h, or_shift_high hi2 h2] at h1

theorem shiftRight8_lt {c : Nat} (h : c < 65536) : c >>> 8 < 256 := by
  rw [Nat.shiftRight_eq_div_pow]
  omega

theorem byte_recombine {c : Nat} (h : c < 65536) :
    (c &&& 255) ||| (((c >>> 8) &&& 255) <<< 8) = c := by
  rw [and_255_eq_self (shiftRight8_lt h)]
  apply Nat.eq_of_testBit_eq
  intro i
  rw [Nat.testBit_or, Nat.testBit_and, Nat.testBit_shiftLeft, Nat.testBit_shiftRight,
    testBit_255]
  by_cases hi8 : i < 8
  · have h8 : ¬ (8 ≤ i) := by omega
    simp [hi8, h8]
  · have hsub : 8 + (i - 8) = i := by omega
    have h8 : (8 : Nat) ≤ i := by omega
    simp [hi8, hsub, h8]

/-! ## CRC register stays a 16-bit value -/

theorem crcStep_lt {c b : Nat} (hc : c < 65536) (hb : b < 65536) :
    crcStep c b < 65536 := by
  unfold crcStep
  apply lstepIter_lt
  have e : (65536 : Nat) = 2 ^ 16 := by norm_num
  rw [e] at hc hb ⊢
  exact Nat.xor_lt_two_pow hc hb

theorem foldl_crcStep_lt {l : List Nat} {s : Nat} (hs : s < 65536)
    (hl : ∀ x ∈ l, x < 65536) : l.foldl crcStep s < 65536 := by
  induction l generalizing s with
  | nil => exact hs
  | cons b t ih =>
    rw [List.foldl_cons]
    exact ih (crcStep_lt hs (hl b (by simp))) (fun x hx => hl x (by simp [hx]))

theorem calcCRC_lt {l : List Nat} (hl : ∀ x ∈ l, x < 65536) : calcCRC l < 65536 :=
  foldl_crcStep_lt (by norm_num) hl

theorem and_255_eq_mod (x : Nat) : x &&& 255 = x % 256 := by
  have e : (256 : Nat) = 2 ^ 8 := by norm_num
  apply Nat.eq_of_testBit_eq
  intro i
  rw [Nat.testBit_and, testBit_255, e, Nat.testBit_mod_two_pow, Bool.and_comm]

theorem testBit_127 (i : Nat) : Nat.testBit 127 i = decide (i < 7) := by
  simpa using Nat.testBit_two_pow_sub_one 7 i

theorem and_127_eq_mod (x : Nat) : x &&& 127 = x % 128 := by
  have e : (128 : Nat) = 2 ^ 7 := by norm_num
  apply Nat.eq_of_testBit_eq
  intro i
  rw [Nat.testBit_and, testBit_127, e, Nat.testBit_mod_two_pow, Bool.and_comm]

theorem or_shift_eq_add {lo : Nat} (hi : Nat) (h : lo < 256) :
    lo ||| (hi <<< 8) = lo + 256 * hi := by
  have hz := or_shift_low hi h
  have hzh := or_shift_high hi h
  rw [and_255_eq_mod] at hz
  rw [Nat.shiftRight_eq_div_pow] at hzh
  norm_num at hzh
  omega

/-! ## Data model: error kinds, requests, responses -/

/-- The error kinds delivered through the client (`Error` in the source).
Only the kinds reachable in `ModbusClientRTU.cpp` are modelled. -/
inductive Error where
  | SUCCESS
  | TIMEOUT
  | PACKET_LENGTH_ERROR
  | CRC_ERROR
  | SERVER_ID_MISMATCH
  | FC_MISMATCH
  | REQUEST_QUEUE_FULL
deriving DecidableEq, Repr

/-- Modelled from the spec: the numeric one-byte values of the error kinds
(the enum lives in a header that is not under `src/`).  All that the claims
use is that each failure kind is a nonzero byte. -/
def Error.code : Error → Nat
  | .SUCCESS => 0x00
  | .TIMEOUT => 0xE0
  | .CRC_ERROR => 0xE2
  | .FC_MISMATCH => 0xE3
  | .SERVER_ID_MISMATCH => 0xE4
  | .PACKET_LENGTH_ERROR => 0xE5
  | .REQUEST_QUEUE_FULL => 0xE8

/-- Modelled from the spec: `RTURequest` (not under `src/`) — an immutable
framed request: server id, function code, serialized payload and an opaque
caller token.  Its message bytes are `serverId‖functionCode‖payload` and
its CRC is computed over them at construction time. -/
structure RTURequest where
  serverId : Nat
  functionCode : Nat
  payload : List Nat
  token : Nat
deriving DecidableEq, Repr

/-- `request->data()`: the message bytes without the CRC. -/
def RTURequest.data (r : RTURequest) : List Nat :=
  r.serverId :: r.functionCode :: r.payload

/-- `request->len()`. -/
def RTURequest.len (r : RTURequest) : Nat := r.data.length

/-- `request->CRC`, always valid for the frame it was built from. -/
def RTURequest.CRC (r : RTURequest) : Nat := calcCRC r.data

def RTURequest.getServerID (r : RTURequest) : Nat := r.serverId

def RTURequest.getFunctionCode (r : RTURequest) : Nat := r.functionCode

def RTURequest.getToken (r : RTURequest) : Nat := r.token

/-- Modelled from the spec: `RTUResponse` (not under `src/`) — a byte buffer
holding the payload without the trailing CRC, plus the CRC value extracted
from (or computed for) the frame. -/
structure RTUResponse where
  bytes : List Nat
  crc : Nat
deriving DecidableEq, Repr

/-- `response->data()`. -/
def RTUResponse.data (r : RTUResponse) : List Nat := r.bytes

/-- `response->len()`. -/
def RTUResponse.len (r : RTUResponse) : Nat := r.bytes.length

/-- Modelled from the spec: `serverId = bytes[0]`. -/
def RTUResponse.getServerID (r : RTUResponse) : Nat := r.bytes.getD 0 0

/-- Modelled from the spec: `functionCode = bytes[1]`. -/
def RTUResponse.getFunctionCode (r : RTUResponse) : Nat := r.bytes.getD 1 0

/-- Modelled from the spec: a response is an error frame when the high bit
of its function code is set, and then `bytes[2]` is the error code; a
response with the high bit clear carries no error (code `0`). -/
def RTUResponse.getError (r : RTUResponse) : Nat :=
  if r.getFunctionCode &&& 0x80 ≠ 0 then r.bytes.getD 2 0 else 0

/-- Modelled from the spec: `isValidCRC` recomputes the CRC over the stored
payload bytes and compares it with the stored CRC value. -/
def RTUResponse.isValidCRC (r : RTUResponse) : Bool := calcCRC r.bytes == r.crc

/-! ## Receive state machine: data path -/

/-- `ERROR_EXIT` (lines 590-598): synthesize a three-byte error payload —
the request's server id, its function code with the `0x80` bit set, and the
error code byte — and compute the CRC over those three bytes. -/
def errorExit (request : RTURequest) (errorCode : Error) : RTUResponse :=
  { bytes := [request.getServerID, request.getFunctionCode ||| 0x80, errorCode.code],
    crc := calcCRC [request.getServerID, request.getFunctionCode ||| 0x80, errorCode.code] }

/-- `DATA_READ` (lines 552-587): require at least 5 gathered bytes, split
off the trailing two CRC bytes (low byte first), then check CRC, server id
and function code (with the `0x80` bit masked via `&&& 0x7F`) in that
order; the first failing check selects the error, otherwise the received
response is returned. -/
def dataRead (request : RTURequest) (buffer : List Nat) : RTUResponse :=
  if 5 ≤ buffer.length then
    let response : RTUResponse :=
      { bytes := buffer.take (buffer.length - 2),
        crc := buffer.getD (buffer.length - 2) 0 ||| (buffer.getD (buffer.length - 1) 0 <<< 8) }
    if ¬ response.isValidCRC then errorExit request .CRC_ERROR
    else if response.getServerID ≠ request.getServerID then errorExit request .SERVER_ID_MISMATCH
    else if response.getFunctionCode &&& 0x7F ≠ request.getFunctionCode then
      errorExit request .FC_MISMATCH
    else response
  else errorExit request .PACKET_LENGTH_ERROR

/-- The receive attempt as seen by the worker (`receive`, lines 462-610).
The timing states `WAIT_INTERVAL`/`WAIT_DATA`/`IN_PACKET` are abstracted
into the `arrival` argument: `none` models the response timeout firing in
`WAIT_DATA`, `some buffer` models the bytes gathered in `IN_PACKET` once a
full inter-frame gap ends the frame. -/
def receive (request : RTURequest) (arrival : Option (List Nat)) : RTUResponse :=
  match arrival with
  | none => errorExit request .TIMEOUT
  | some buffer => dataRead request buffer

/-- Classification of the outcome of a receive attempt: which error kind
(if any) the state machine selects for a given arrival. -/
def receiveOutcome (request : RTURequest) (arrival : Option (List Nat)) : Error :=
  match arrival with
  | none => .TIMEOUT
  | some buffer =>
    if 5 ≤ buffer.length then
      let body := buffer.take (buffer.length - 2)
      let stored := buffer.getD (buffer.length - 2) 0 ||| (buffer.getD (buffer.length - 1) 0 <<< 8)
      if calcCRC body ≠ stored then .CRC_ERROR
      else if body.getD 0 0 ≠ request.serverId then .SERVER_ID_MISMATCH
      else if body.getD 1 0 &&& 0x7F ≠ request.functionCode then .FC_MISMATCH
      else .SUCCESS
    else .PACKET_LENGTH_ERROR

/-- Written from the spec's words (§4.2 `FrameComplete`, §6 wire format):
fewer than 5 bytes is a length error; otherwise the trailing two bytes,
little-endian (low byte first), are the CRC; then CRC match, echoed server
id, and echoed function code with the error bit masked off are checked in
that order, the first failing check selecting the error. -/
def specFrameCheck (request : RTURequest) (buffer : List Nat) : RTUResponse :=
  if buffer.length < 5 then errorExit request .PACKET_LENGTH_ERROR
  else
    let body := buffer.take (buffer.length - 2)
    let storedCRC := buffer.getD (buffer.length - 2) 0 + 256 * buffer.getD (buffer.length - 1) 0
    if calcCRC body ≠ storedCRC then errorExit request .CRC_ERROR
    else if body.getD 0 0 ≠ request.serverId then errorExit request .SERVER_ID_MISMATCH
    else if body.getD 1 0 % 128 ≠ request.functionCode then errorExit request .FC_MISMATCH
    else { bytes := body, crc := storedCRC }

/-! ## Wire image of a frame and the receive-side CRC validation -/

/-- The byte sequence put on the wire for a message: the message bytes
followed by the CRC low byte and then the CRC high byte (as written by
`send`, lines 452-454, and assembled by `vectorize`, lines 364-368). -/
def frameWithCRC (msg : List Nat) : List Nat :=
  msg ++ [calcCRC msg &&& 0xFF, (calcCRC msg >>> 8) &&& 0xFF]

/-- The receive-side CRC validation applied to a raw buffer: recompute the
CRC over all but the trailing two bytes and compare with the stored CRC
extracted low byte first (`DATA_READ`, lines 557-563). -/
def validFrame (buffer : List Nat) : Bool :=
  calcCRC (buffer.take (buffer.length - 2)) ==
    (buffer.getD (buffer.length - 2) 0 ||| (buffer.getD (buffer.length - 1) 0 <<< 8))

/-- Flip bit `i` of the byte at position `j`. -/
def flipBit (j i : Nat) (l : List Nat) : List Nat :=
  l.set j ((l.getD j 0) ^^^ (1 <<< i))

/-! ## Client state: queue, counters, timing configuration -/

/-- The state of a `ModbusClientRTU` instance.  `onData`/`onError` record
whether the respective callback handler is registered.  Times are in
microseconds on an abstract monotonic clock. -/
structure ClientState where
  requests : List RTURequest
  MR_qLimit : Nat
  messageCount : Nat
  MR_interval : Nat
  MR_lastMicros : Nat
  MR_rtsPin : Int
  MR_timeoutValue : Nat
  onData : Bool
  onError : Bool
deriving DecidableEq, Repr

/-- `addToQueue` (lines 331-345): reject a null request; push a non-null
request only when the current queue size is below `MR_qLimit`; bump
`messageCount` for every non-null request, pushed or not. -/
def addToQueue (st : ClientState) (request : Option RTURequest) : Bool × ClientState :=
  match request with
  | none => (false, st)
  | some r =>
    if st.requests.length < st.MR_qLimit then
      (true, { st with requests := st.requests ++ [r], messageCount := st.messageCount + 1 })
    else
      (false, { st with messageCount := st.messageCount + 1 })

/-- Callback invocations observable by the caller. -/
inductive Event where
  | dataEv (serverId functionCode : Nat) (payload : List Nat) (len token : Nat)
  | errorEv (errorCode token : Nat)
deriving DecidableEq, Repr

/-- `addRequest` (lines 69-86 and the six analogous overloads): the builder
`createRTURequest` is an out-of-scope collaborator, so its outcome is the
argument pair `rc0`/`created`.  The request is added to the queue if it was
created; a failed add turns the return code into `REQUEST_QUEUE_FULL` and
releases the request.  The third component records the callbacks invoked
synchronously during the call — the source invokes none on this path. -/
def addRequest (st : ClientState) (rc0 : Error) (created : Option RTURequest) :
    Error × ClientState × List Event :=
  match created with
  | none => (rc0, st, [])
  | some r =>
    let res := addToQueue st (some r)
    if res.1 then (rc0, res.2, []) else (.REQUEST_QUEUE_FULL, res.2, [])

/-- `begin` (lines 52-59): derive the silent interval from the configured
baud rate as `40000000 / baud` µs (4 character-times of 10 bits), floored
at 1000 µs. -/
def begin (st : ClientState) (baud : Nat) : ClientState :=
  let iv := 40000000 / baud
  { st with MR_interval := if iv < 1000 then 1000 else iv }

/-- `setTimeout` (lines 63-65). -/
def setTimeout (st : ClientState) (TOV : Nat) : ClientState :=
  { st with MR_timeoutValue := TOV }

/-! ## Send phase -/

/-- Observable actions of the send phase, in order. -/
inductive SendAction where
  | rtsHigh
  | rtsLow
  | writeByte (b : Nat)
  | flushSerial
deriving DecidableEq, Repr

/-- The exit time of the busy-wait loop
`while (micros() - MR_lastMicros < MR_interval) delayMicroseconds(1);`
(line 449) on a monotonic clock whose value at entry is `now`. -/
def sendWaitExit (st : ClientState) (now : Nat) : Nat :=
  if now - st.MR_lastMicros < st.MR_interval then st.MR_lastMicros + st.MR_interval else now

/-- The ordered action trace of `send` (lines 448-459): assert the RTS pin
when configured, write the message bytes then the CRC low and high bytes,
flush, deassert the pin. -/
def sendTrace (st : ClientState) (request : RTURequest) : List SendAction :=
  (if 0 ≤ st.MR_rtsPin then [SendAction.rtsHigh] else []) ++
    (request.data ++ [request.CRC &&& 0xFF, (request.CRC >>> 8) &&& 0xFF]).map SendAction.writeByte ++
    [SendAction.flushSerial] ++
    (if 0 ≤ st.MR_rtsPin then [SendAction.rtsLow] else [])

/-- `send` (lines 448-459): produce the action trace and set
`MR_lastMicros` to the clock value after the flush completes. -/
def send (st : ClientState) (request : RTURequest) (flushDone : Nat) :
    List SendAction × ClientState :=
  (sendTrace st request, { st with MR_lastMicros := flushDone })

/-- The state effect of a whole `receive` call (line 607): `MR_lastMicros`
is set when the call returns; nothing else of the instance state changes. -/
def receiveRun (st : ClientState) (request : RTURequest) (arrival : Option (List Nat))
    (tEnd : Nat) : RTUResponse × ClientState :=
  (receive request arrival, { st with MR_lastMicros := tEnd })

/-! ## Worker loop -/

/-- The callbacks fired for one completed transaction (lines 417-430):
`onData` when the response carries no error, `onError` otherwise — each
only when the respective handler is registered. -/
def callbackEvents (cl : ClientState) (request : RTURequest) (response : RTUResponse) :
    List Event :=
  if response.getError == 0 then
    if cl.onData then
      [.dataEv response.getServerID response.getFunctionCode response.data response.len
        request.getToken]
    else []
  else
    if cl.onError then [.errorEv response.getError request.getToken] else []

/-- Program points of one worker iteration (`handleConnection`,
lines 405-445). -/
inductive WPhase where
  | poll
  | pulled (request : RTURequest)
  | sentReq (request : RTURequest)
  | responded (request : RTURequest) (response : RTUResponse)
  | delivered (request : RTURequest)
deriving DecidableEq, Repr

structure WorkerState where
  cl : ClientState
  phase : WPhase
  events : List Event
deriving DecidableEq, Repr

/-- One micro-step of the worker loop.  `oracle` abstracts the outcome of
`receive` for a given request (the serial line is external).  The request
is read from the queue front without being removed (`requests.front()`,
line 411) and popped only in the clean-up step after the callback
(`requests.pop()`, line 436). -/
def handleConnectionStep (oracle : RTURequest → RTUResponse) (s : WorkerState) :
    WorkerState :=
  match s.phase with
  | .poll =>
    match s.cl.requests with
    | [] => s
    | request :: _ => { s with phase := .pulled request }
  | .pulled request => { s with phase := .sentReq request }
  | .sentReq request => { s with phase := .responded request (oracle request) }
  | .responded request response =>
    { s with phase := .delivered request,
             events := s.events ++ callbackEvents s.cl request response }
  | .delivered _ =>
    { s with phase := .poll, cl := { s.cl with requests := s.cl.requests.tail } }

/-- The single event a completed transaction contributes when both handlers
are registered. -/
def transactEvent (oracle : RTURequest → RTUResponse) (request : RTURequest) : Event :=
  if (oracle request).getError == 0 then
    .dataEv (oracle request).getServerID (oracle request).getFunctionCode
      (oracle request).data (oracle request).len request.getToken
  else
    .errorEv (oracle request).getError request.getToken


/-! ## Claims -/

/-- C10: every `addToQueue` call with a non-null request increments
`messageCount` by exactly one — whether the request is enqueued or rejected
at capacity — so `messageCount` counts attempted submissions of valid
requests, not accepted ones; a null request changes nothing. -/
theorem claim_C10_messageCount_counts_attempts (st : ClientState) (r : RTURequest) :
    (addToQueue st (some r)).2.messageCount = st.messageCount + 1 ∧
    (addToQueue st none).2 = st ∧
    (addToQueue st none).1 = false := by
  refine ⟨?_, rfl, rfl⟩
  unfold addToQueue
  dsimp only
  split <;> rfl

/-- C2: submitting a well-formed request returns `REQUEST_QUEUE_FULL` iff
the queue length at the instant of the call is at least `MR_qLimit`; on a
rejection the queue contents are unchanged and the rejected request is
never enqueued. -/
theorem claim_C2_queueFull_iff (st : ClientState) (req : RTURequest) :
    ((addRequest st .SUCCESS (some req)).1 = .REQUEST_QUEUE_FULL ↔
      st.MR_qLimit ≤ st.requests.length) ∧
    (st.MR_qLimit ≤ st.requests.length →
      (addRequest st .SUCCESS (some req)).2.1.requests = st.requests) := by
  by_cases h : st.requests.length < st.MR_qLimit
  · have hres : addRequest st .SUCCESS (some req) =
        (.SUCCESS,
          { st with requests := st.requests ++ [req],
                    messageCount := st.messageCount + 1 }, []) := by
      unfold addRequest addToQueue
      simp [h]
    rw [hres]
    refine ⟨⟨fun hco => Error.noConfusion hco, fun hle => by omega⟩, fun hle => by omega⟩
  · have hres : addRequest st .SUCCESS (some req) =
        (.REQUEST_QUEUE_FULL, { st with messageCount := st.messageCount + 1 }, []) := by
      unfold addRequest addToQueue
      simp [h]
    rw [hres]
    refine ⟨⟨fun _ => by omega, fun _ => rfl⟩, fun _ => rfl⟩

/-- C2 witness: with `MR_qLimit = 1` and one request already queued, a
fresh submission is rejected as queue-full and the queue is untouched. -/
theorem claim_C2_queueFull_iff_witness :
    (addRequest ⟨[⟨1, 3, [0, 0, 0, 1], 7⟩], 1, 0, 2000, 0, -1, 2000, true, true⟩
        .SUCCESS (some ⟨2, 3, [0, 5], 9⟩)).1 = .REQUEST_QUEUE_FULL ∧
    (addRequest ⟨[⟨1, 3, [0, 0, 0, 1], 7⟩], 1, 0, 2000, 0, -1, 2000, true, true⟩
        .SUCCESS (some ⟨2, 3, [0, 5], 9⟩)).2.1.requests =
      [⟨1, 3, [0, 0, 0, 1], 7⟩] := by
  have h := claim_C2_queueFull_iff
    ⟨[⟨1, 3, [0, 0, 0, 1], 7⟩], 1, 0, 2000, 0, -1, 2000, true, true⟩ ⟨2, 3, [0, 5], 9⟩
  exact ⟨h.1.mpr (by decide), h.2 (by decide)⟩

/-- C6: `begin` derives the silent interval as
`max 1000 (40000000 / baud)` µs — four 10-bit character times at the
nominal baud rate, floored at 1000 µs — and neither `send`, `receive`,
nor `setTimeout` ever changes it afterwards. -/
theorem claim_C6_interval_formula (st : ClientState) (baud : Nat) :
    (begin st baud).MR_interval = max 1000 (40000000 / baud) ∧
    (∀ r t, (send st r t).2.MR_interval = st.MR_interval) ∧
    (∀ r arrival t, (receiveRun st r arrival t).2.MR_interval = st.MR_interval) ∧
    (∀ t, (setTimeout st t).MR_interval = st.MR_interval) := by
  refine ⟨?_, fun r t => rfl, fun r arrival t => rfl, fun t => rfl⟩
  unfold begin
  dsimp only
  split <;> omega

/-- C5 counterexample: a queue-full rejection at submit time returns
`REQUEST_QUEUE_FULL` but fires no callback at all — in particular no
`onError` with the queue-full code and the request's token — contradicting
the claim that `onError` fires synchronously at submit time. -/
theorem claim_C5_counterexample :
    (addRequest ⟨[⟨1, 3, [0, 0, 0, 1], 7⟩], 1, 0, 2000, 0, -1, 2000, true, true⟩
        .SUCCESS (some ⟨2, 3, [0, 5], 9⟩)).1 = .REQUEST_QUEUE_FULL ∧
    (addRequest ⟨[⟨1, 3, [0, 0, 0, 1], 7⟩], 1, 0, 2000, 0, -1, 2000, true, true⟩
        .SUCCESS (some ⟨2, 3, [0, 5], 9⟩)).2.2 = [] ∧
    Event.errorEv (Error.code .REQUEST_QUEUE_FULL) 9 ∉
      (addRequest ⟨[⟨1, 3, [0, 0, 0, 1], 7⟩], 1, 0, 2000, 0, -1, 2000, true, true⟩
        .SUCCESS (some ⟨2, 3, [0, 5], 9⟩)).2.2 := by
  refine ⟨by decide, by decide, by decide⟩

/-- C5 (amended): a queue-full rejection is reported solely through the
submission call's `REQUEST_QUEUE_FULL` return value; no callback (in
particular no `onError`) fires synchronously at submit time — `onError`
fires only from the worker loop for transaction failures. -/
theorem claim_C5_amended_no_sync_callback (st : ClientState) (rc0 : Error)
    (created : Option RTURequest) (req : RTURequest)
    (hfull : st.MR_qLimit ≤ st.requests.length) :
    (addRequest st rc0 created).2.2 = [] ∧
    (addRequest st .SUCCESS (some req)).1 = .REQUEST_QUEUE_FULL := by
  constructor
  · unfold addRequest
    cases created with
    | none => rfl
    | some r =>
      dsimp only
      split <;> rfl
  · exact (claim_C2_queueFull_iff st req).1.mpr hfull

/-- C5 (amended) witness: concrete full queue, rejection with no
synchronous callback. -/
theorem claim_C5_amended_no_sync_callback_witness :
    (addRequest ⟨[⟨1, 3, [0, 0, 0, 1], 7⟩], 1, 0, 2000, 0, -1, 2000, true, true⟩
        .SUCCESS (some ⟨2, 3, [0, 5], 9⟩)).2.2 = [] ∧
    (addRequest ⟨[⟨1, 3, [0, 0, 0, 1], 7⟩], 1, 0, 2000, 0, -1, 2000, true, true⟩
        .SUCCESS (some ⟨2, 3, [0, 5], 9⟩)).1 = .REQUEST_QUEUE_FULL :=
  claim_C5_amended_no_sync_callback
    ⟨[⟨1, 3, [0, 0, 0, 1], 7⟩], 1, 0, 2000, 0, -1, 2000, true, true⟩
    .SUCCESS (some ⟨2, 3, [0, 5], 9⟩) ⟨2, 3, [0, 5], 9⟩ (by decide)

/-- C7: the send phase waits until a full inter-frame interval has elapsed
since the last bus activity, asserts the direction-control pin only when
one is configured, writes exactly the message bytes followed by the CRC low
byte then high byte, flushes, deasserts the pin, and records the
transmission completion time in `MR_lastMicros`. -/
theorem claim_C7_send_phase (st : ClientState) (r : RTURequest) (now flushDone : Nat)
    (hmono : st.MR_lastMicros ≤ now) :
    st.MR_lastMicros + st.MR_interval ≤ sendWaitExit st now ∧
    (send st r flushDone).1 =
      (if 0 ≤ st.MR_rtsPin then [SendAction.rtsHigh] else []) ++
        ((r.serverId :: r.functionCode :: r.payload) ++
          [r.CRC % 256, r.CRC / 256 % 256]).map SendAction.writeByte ++
        [SendAction.flushSerial] ++
        (if 0 ≤ st.MR_rtsPin then [SendAction.rtsLow] else []) ∧
    (send st r flushDone).2.MR_lastMicros = flushDone := by
  refine ⟨?_, ?_, rfl⟩
  · unfold sendWaitExit
    split
    · omega
    · omega
  · have h1 : r.CRC &&& 255 = r.CRC % 256 := and_255_eq_mod _
    have h2 : (r.CRC >>> 8) &&& 255 = r.CRC / 256 % 256 := by
      rw [and_255_eq_mod, Nat.shiftRight_eq_div_pow]
    unfold send sendTrace RTURequest.data
    rw [show (0xFF : Nat) = 255 from rfl, h1, h2]

/-- C7 witness: concrete send with a configured direction pin. -/
theorem claim_C7_send_phase_witness :
    (100 : Nat) + 2000 ≤ sendWaitExit ⟨[], 10, 0, 2000, 100, 0, 2000, true, true⟩ 5000 ∧
    (send ⟨[], 10, 0, 2000, 100, 0, 2000, true, true⟩ ⟨1, 3, [0, 0, 0, 2], 5⟩ 6000).1 =
      (if (0 : Int) ≤ 0 then [SendAction.rtsHigh] else []) ++
        (((1 : Nat) :: (3 : Nat) :: [0, 0, 0, 2]) ++
          [(⟨1, 3, [0, 0, 0, 2], 5⟩ : RTURequest).CRC % 256,
            (⟨1, 3, [0, 0, 0, 2], 5⟩ : RTURequest).CRC / 256 % 256]).map SendAction.writeByte ++
        [SendAction.flushSerial] ++
        (if (0 : Int) ≤ 0 then [SendAction.rtsLow] else []) ∧
    (send ⟨[], 10, 0, 2000, 100, 0, 2000, true, true⟩ ⟨1, 3, [0, 0, 0, 2], 5⟩ 6000).2.MR_lastMicros
      = 6000 :=
  claim_C7_send_phase ⟨[], 10, 0, 2000, 100, 0, 2000, true, true⟩
    ⟨1, 3, [0, 0, 0, 2], 5⟩ 5000 6000 (by decide)

/-- C4: every receive attempt that ends in an error yields a synthesized
error frame of exactly three payload bytes — the request's server id, its
function code with the `0x80` bit set, and the one-byte error code — whose
CRC field is the CRC computed over those three bytes. -/
theorem claim_C4_error_response_shape (request : RTURequest)
    (arrival : Option (List Nat)) (h : receiveOutcome request arrival ≠ .SUCCESS) :
    receive request arrival = errorExit request (receiveOutcome request arrival) ∧
    (receive request arrival).bytes =
      [request.serverId, request.functionCode ||| 0x80,
        (receiveOutcome request arrival).code] ∧
    (receive request arrival).bytes.length = 3 ∧
    (receive request arrival).crc = calcCRC (receive request arrival).bytes := by
  have hmain : receive request arrival = errorExit request (receiveOutcome request arrival) := by
    cases arrival with
    | none => rfl
    | some buffer =>
      by_cases h5 : 5 ≤ buffer.length
      · by_cases hcrc : calcCRC (buffer.take (buffer.length - 2)) =
            buffer[buffer.length - 2]?.getD 0 ||| buffer[buffer.length - 1]?.getD 0 <<< 8
        · by_cases hsid : (buffer.take (buffer.length - 2))[0]?.getD 0 = request.serverId
          · by_cases hfc : (buffer.take (buffer.length - 2))[1]?.getD 0 &&& 0x7F =
                request.functionCode
            · exfalso
              apply h
              unfold receiveOutcome
              simp [h5, hcrc, hsid, hfc]
            · unfold receive dataRead receiveOutcome
              simp [h5, hcrc, hsid, hfc, RTUResponse.isValidCRC, RTUResponse.getServerID,
                RTUResponse.getFunctionCode, RTURequest.getServerID,
                RTURequest.getFunctionCode, beq_iff_eq]
          · unfold receive dataRead receiveOutcome
            simp [h5, hcrc, hsid, RTUResponse.isValidCRC, RTUResponse.getServerID,
              RTUResponse.getFunctionCode, RTURequest.getServerID,
              RTURequest.getFunctionCode, beq_iff_eq]
        · unfold receive dataRead receiveOutcome
          simp [h5, hcrc, RTUResponse.isValidCRC, RTUResponse.getServerID,
            RTUResponse.getFunctionCode, RTURequest.getServerID,
            RTURequest.getFunctionCode, beq_iff_eq]
      · unfold receive dataRead receiveOutcome
        simp [h5]
  refine ⟨hmain, ?_, ?_, ?_⟩ <;> rw [hmain] <;> rfl

/-- C4 witness: a timed-out receive produces the synthesized timeout error
frame. -/
theorem claim_C4_error_response_shape_witness :
    receive ⟨1, 3, [0, 10], 5⟩ none =
      errorExit ⟨1, 3, [0, 10], 5⟩ (receiveOutcome ⟨1, 3, [0, 10], 5⟩ none) ∧
    (receive ⟨1, 3, [0, 10], 5⟩ none).bytes =
      [1, 3 ||| 0x80, (receiveOutcome ⟨1, 3, [0, 10], 5⟩ none).code] ∧
    (receive ⟨1, 3, [0, 10], 5⟩ none).bytes.length = 3 ∧
    (receive ⟨1, 3, [0, 10], 5⟩ none).crc =
      calcCRC (receive ⟨1, 3, [0, 10], 5⟩ none).bytes :=
  claim_C4_error_response_shape ⟨1, 3, [0, 10], 5⟩ none (by decide)

theorem getD_lt_256 {l : List Nat} (h : ∀ x ∈ l, x < 256) (i : Nat) : l.getD i 0 < 256 := by
  by_cases hi : i < l.length
  · rw [List.getD_eq_getElem l 0 hi]
    exact h _ (List.getElem_mem hi)
  · rw [List.getD_eq_default _ _ (by omega)]
    omega

/-- C3: the `DATA_READ` validation agrees with the spec's reading — fewer
than 5 bytes is `PACKET_LENGTH_ERROR`; otherwise the trailing two bytes are
the CRC (low byte first), and CRC match, echoed server id, and echoed
function code with the error bit masked off are checked in that order, the
first failing check selecting the error; a 4-byte buffer yields the length
error and a valid 5-byte frame yields success. -/
theorem claim_C3_validation_order (request : RTURequest) (buffer : List Nat)
    (hbytes : ∀ x ∈ buffer, x < 256) :
    dataRead request buffer = specFrameCheck request buffer ∧
    dataRead ⟨1, 3, [0, 10, 0, 1], 55⟩ [1, 131, 2, 241] =
      errorExit ⟨1, 3, [0, 10, 0, 1], 55⟩ .PACKET_LENGTH_ERROR ∧
    (frameWithCRC [1, 3, 7]).length = 5 ∧
    dataRead ⟨1, 3, [0, 10, 0, 1], 55⟩ (frameWithCRC [1, 3, 7]) =
      { bytes := [1, 3, 7], crc := calcCRC [1, 3, 7] } := by
  refine ⟨?_, by decide, by decide, by decide⟩
  have hlo : buffer.getD (buffer.length - 2) 0 < 256 := getD_lt_256 hbytes _
  have hstored : buffer.getD (buffer.length - 2) 0 ||| (buffer.getD (buffer.length - 1) 0 <<< 8)
      = buffer.getD (buffer.length - 2) 0 + 256 * buffer.getD (buffer.length - 1) 0 :=
    or_shift_eq_add _ hlo
  by_cases h5 : 5 ≤ buffer.length
  · have h5n : ¬ (buffer.length < 5) := by omega
    simp only [dataRead, specFrameCheck, if_pos h5, if_neg h5n, RTUResponse.isValidCRC,
      RTUResponse.getServerID, RTUResponse.getFunctionCode, RTURequest.getServerID,
      RTURequest.getFunctionCode, beq_iff_eq, ne_eq, hstored, and_127_eq_mod]
  · have h5y : buffer.length < 5 := by omega
    simp only [dataRead, specFrameCheck, if_neg h5, if_pos h5y]

/-- C3 witness: a concrete all-bytes buffer on which the code check and the
spec check coincide. -/
theorem claim_C3_validation_order_witness :
    dataRead ⟨1, 3, [0, 10, 0, 1], 55⟩ [1, 3, 7, 9, 11, 13] =
      specFrameCheck ⟨1, 3, [0, 10, 0, 1], 55⟩ [1, 3, 7, 9, 11, 13] :=
  (claim_C3_validation_order ⟨1, 3, [0, 10, 0, 1], 55⟩ [1, 3, 7, 9, 11, 13] (by decide)).1

/-- C9: the worker reads the in-flight request from the queue front without
removing it; the pop happens only in the clean-up step after the callback
was delivered, so for the whole transaction the request still occupies a
queue slot and counts toward the `MR_qLimit` capacity check seen by new
submissions. -/
theorem claim_C9_inflight_occupies_slot (oracle : RTURequest → RTUResponse)
    (cl : ClientState) (r : RTURequest) (rest : List RTURequest) (evs : List Event)
    (q : RTURequest) (hq : cl.requests = r :: rest) :
    (handleConnectionStep oracle ⟨cl, .poll, evs⟩).phase = .pulled r ∧
    (handleConnectionStep oracle ⟨cl, .poll, evs⟩).cl = cl ∧
    ((handleConnectionStep oracle)^[2] ⟨cl, .poll, evs⟩).cl = cl ∧
    ((handleConnectionStep oracle)^[3] ⟨cl, .poll, evs⟩).cl = cl ∧
    ((handleConnectionStep oracle)^[4] ⟨cl, .poll, evs⟩).cl = cl ∧
    ((handleConnectionStep oracle)^[4] ⟨cl, .poll, evs⟩).events =
      evs ++ callbackEvents cl r (oracle r) ∧
    ((handleConnectionStep oracle)^[5] ⟨cl, .poll, evs⟩).cl.requests = rest ∧
    ((handleConnectionStep oracle)^[5] ⟨cl, .poll, evs⟩).events =
      evs ++ callbackEvents cl r (oracle r) ∧
    (cl.MR_qLimit ≤ cl.requests.length →
      (addToQueue ((handleConnectionStep oracle)^[4] ⟨cl, .poll, evs⟩).cl (some q)).1 = false) := by
  have s1 : handleConnectionStep oracle ⟨cl, .poll, evs⟩ = ⟨cl, .pulled r, evs⟩ := by
    simp [handleConnectionStep, hq]
  have s2 : (handleConnectionStep oracle)^[2] ⟨cl, .poll, evs⟩ = ⟨cl, .sentReq r, evs⟩ := by
    have e : (handleConnectionStep oracle)^[2] ⟨cl, .poll, evs⟩ =
        handleConnectionStep oracle (handleConnectionStep oracle ⟨cl, .poll, evs⟩) := rfl
    rw [e, s1]
    rfl
  have s3 : (handleConnectionStep oracle)^[3] ⟨cl, .poll, evs⟩ =
      ⟨cl, .responded r (oracle r), evs⟩ := by
    have e : (handleConnectionStep oracle)^[3] ⟨cl, .poll, evs⟩ =
        handleConnectionStep oracle ((handleConnectionStep oracle)^[2] ⟨cl, .poll, evs⟩) := rfl
    rw [e, s2]
    rfl
  have s4 : (handleConnectionStep oracle)^[4] ⟨cl, .poll, evs⟩ =
      ⟨cl, .delivered r, evs ++ callbackEvents cl r (oracle r)⟩ := by
    have e : (handleConnectionStep oracle)^[4] ⟨cl, .poll, evs⟩ =
        handleConnectionStep oracle ((handleConnectionStep oracle)^[3] ⟨cl, .poll, evs⟩) := rfl
    rw [e, s3]
    rfl
  have s5 : (handleConnectionStep oracle)^[5] ⟨cl, .poll, evs⟩ =
      ⟨{ cl with requests := rest }, .poll, evs ++ callbackEvents cl r (oracle r)⟩ := by
    have e : (handleConnectionStep oracle)^[5] ⟨cl, .poll, evs⟩ =
        handleConnectionStep oracle ((handleConnectionStep oracle)^[4] ⟨cl, .poll, evs⟩) := rfl
    rw [e, s4]
    simp [handleConnectionStep, hq]
  refine ⟨by rw [s1], by rw [s1], by rw [s2], by rw [s3], by rw [s4], by rw [s4],
    by rw [s5], by rw [s5], ?_⟩
  intro hcap
  rw [s4]
  unfold addToQueue
  dsimp only
  rw [if_neg (by omega)]

theorem callbackEvents_registered {cl : ClientState} (hD : cl.onData = true)
    (hE : cl.onError = true) (oracle : RTURequest → RTUResponse) (r : RTURequest) :
    callbackEvents cl r (oracle r) = [transactEvent oracle r] := by
  by_cases hg : (oracle r).getError = 0 <;>
    simp [callbackEvents, transactEvent, RTURequest.getToken, hg, hD, hE]

theorem worker_chunk (oracle : RTURequest → RTUResponse) (cl : ClientState)
    (r : RTURequest) (rest : List RTURequest) (evs : List Event)
    (hq : cl.requests = r :: rest) :
    (handleConnectionStep oracle)^[5] ⟨cl, .poll, evs⟩ =
      ⟨{ cl with requests := rest }, .poll, evs ++ callbackEvents cl r (oracle r)⟩ := by
  have e : (handleConnectionStep oracle)^[5] ⟨cl, .poll, evs⟩ =
      handleConnectionStep oracle (handleConnectionStep oracle (handleConnectionStep oracle
        (handleConnectionStep oracle (handleConnectionStep oracle ⟨cl, .poll, evs⟩)))) := rfl
  rw [e]
  have s1 : handleConnectionStep oracle ⟨cl, .poll, evs⟩ = ⟨cl, .pulled r, evs⟩ := by
    simp [handleConnectionStep, hq]
  rw [s1]
  show handleConnectionStep oracle ⟨cl, .delivered r, evs ++ callbackEvents cl r (oracle r)⟩ = _
  simp [handleConnectionStep, hq]

theorem worker_run (oracle : RTURequest → RTUResponse) (qs : List RTURequest) :
    ∀ (cl : ClientState) (evs : List Event), cl.onData = true → cl.onError = true →
      cl.requests = qs →
      (handleConnectionStep oracle)^[5 * qs.length] ⟨cl, .poll, evs⟩ =
        ⟨{ cl with requests := [] }, .poll, evs ++ qs.map (transactEvent oracle)⟩ := by
  induction qs with
  | nil =>
    intro cl evs hD hE hreq
    simp only [List.length_nil, Nat.mul_zero, Function.iterate_zero, id_eq, List.map_nil,
      List.append_nil]
    have hcl : { cl with requests := ([] : List RTURequest) } = cl := by
      cases cl
      simp_all
    rw [hcl]
  | cons r rest ih =>
    intro cl evs hD hE hreq
    have hlen : 5 * (r :: rest).length = 5 * rest.length + 5 := by
      simp [List.length_cons]
      ring
    rw [hlen, Function.iterate_add_apply, worker_chunk oracle cl r rest evs hreq]
    rw [ih { cl with requests := rest } (evs ++ callbackEvents cl r (oracle r)) hD hE rfl]
    rw [callbackEvents_registered hD hE]
    simp [List.map_cons, List.append_assoc]

/-- C1: with both callback handlers registered, the worker loop processes
the queued requests strictly FIFO and fires exactly one callback per
accepted request, in submission order: the event list after draining the
queue is exactly the per-request outcome map, where a transaction whose
response carries no error contributes the `onData` call and any other
transaction contributes the `onError` call. -/
theorem claim_C1_fifo_exactly_once (oracle : RTURequest → RTUResponse) (cl : ClientState)
    (hD : cl.onData = true) (hE : cl.onError = true) :
    (handleConnectionStep oracle)^[5 * cl.requests.length] ⟨cl, .poll, []⟩ =
      ⟨{ cl with requests := [] }, .poll, cl.requests.map (transactEvent oracle)⟩ ∧
    (cl.requests.map (transactEvent oracle)).length = cl.requests.length ∧
    (∀ req, (oracle req).getError = 0 →
      transactEvent oracle req = .dataEv (oracle req).getServerID (oracle req).getFunctionCode
        (oracle req).data (oracle req).len req.token) ∧
    (∀ req, (oracle req).getError ≠ 0 →
      transactEvent oracle req = .errorEv (oracle req).getError req.token) := by
  refine ⟨?_, by simp, ?_, ?_⟩
  · have h := worker_run oracle cl.requests cl [] hD hE rfl
    simpa using h
  · intro req hg
    simp [transactEvent, RTURequest.getToken, hg]
  · intro req hg
    simp [transactEvent, RTURequest.getToken, hg]

/-- C1 witness: a two-request queue — one transaction succeeding, one
failing — yields exactly the two callbacks, in submission order. -/
theorem claim_C1_fifo_exactly_once_witness :
    (handleConnectionStep
        (fun req => if req.token == 5 then ⟨[1, 3, 2, 0, 7], 99⟩ else ⟨[2, 132, 224], 11⟩))^[5 *
      (⟨[⟨1, 3, [0], 5⟩, ⟨2, 4, [1], 6⟩], 8, 0, 2000, 0, -1, 2000, true, true⟩ :
        ClientState).requests.length]
      ⟨⟨[⟨1, 3, [0], 5⟩, ⟨2, 4, [1], 6⟩], 8, 0, 2000, 0, -1, 2000, true, true⟩, .poll, []⟩ =
      ⟨{ (⟨[⟨1, 3, [0], 5⟩, ⟨2, 4, [1], 6⟩], 8, 0, 2000, 0, -1, 2000, true, true⟩ :
          ClientState) with requests := [] }, .poll,
        (⟨[⟨1, 3, [0], 5⟩, ⟨2, 4, [1], 6⟩], 8, 0, 2000, 0, -1, 2000, true, true⟩ :
          ClientState).requests.map
          (transactEvent
            (fun req => if req.token == 5 then ⟨[1, 3, 2, 0, 7], 99⟩ else ⟨[2, 132, 224], 11⟩))⟩ :=
  (claim_C1_fifo_exactly_once
    (fun req => if req.token == 5 then ⟨[1, 3, 2, 0, 7], 99⟩ else ⟨[2, 132, 224], 11⟩)
    ⟨[⟨1, 3, [0], 5⟩, ⟨2, 4, [1], 6⟩], 8, 0, 2000, 0, -1, 2000, true, true⟩
    rfl rfl).1

/-! ## CRC round-trip and single-bit-flip detection -/

theorem frameWithCRC_length (msg : List Nat) :
    (frameWithCRC msg).length = msg.length + 2 := by
  simp [frameWithCRC]

theorem frameWithCRC_take (msg : List Nat) :
    (frameWithCRC msg).take (msg.length + 2 - 2) = msg := by
  have h2 : msg.length + 2 - 2 = msg.length := by omega
  rw [frameWithCRC, h2, List.take_left]

theorem frameWithCRC_lo (msg : List Nat) :
    (frameWithCRC msg).getD (msg.length + 2 - 2) 0 = calcCRC msg &&& 255 := by
  rw [frameWithCRC, List.getD_append_right _ _ _ _ (by omega)]
  have h0 : msg.length + 2 - 2 - msg.length = 0 := by omega
  rw [h0]
  rfl

theorem frameWithCRC_hi (msg : List Nat) :
    (frameWithCRC msg).getD (msg.length + 2 - 1) 0 = (calcCRC msg >>> 8) &&& 255 := by
  rw [frameWithCRC, List.getD_append_right _ _ _ _ (by omega)]
  have h1 : msg.length + 2 - 1 - msg.length = 1 := by omega
  rw [h1]
  rfl

theorem calcCRC_lt_of_bytes {msg : List Nat} (h : ∀ x ∈ msg, x < 256) :
    calcCRC msg < 65536 :=
  calcCRC_lt (fun x hx => lt_trans (h x hx) (by norm_num))

theorem validFrame_frameWithCRC {msg : List Nat} (h : ∀ x ∈ msg, x < 256) :
    validFrame (frameWithCRC msg) = true := by
  unfold validFrame
  rw [frameWithCRC_length, frameWithCRC_take, frameWithCRC_lo, frameWithCRC_hi,
    byte_recombine (calcCRC_lt_of_bytes h)]
  simp

theorem append2_length (A : List Nat) (x y : Nat) :
    (A ++ [x, y]).length = A.length + 2 := by
  simp

theorem append2_take (A : List Nat) (x y : Nat) :
    (A ++ [x, y]).take (A.length + 2 - 2) = A := by
  have h2 : A.length + 2 - 2 = A.length := by omega
  rw [h2, List.take_left]

theorem append2_getD_lo (A : List Nat) (x y : Nat) :
    (A ++ [x, y]).getD (A.length + 2 - 2) 0 = x := by
  rw [List.getD_append_right _ _ _ _ (by omega)]
  have h0 : A.length + 2 - 2 - A.length = 0 := by omega
  rw [h0]
  rfl

theorem append2_getD_hi (A : List Nat) (x y : Nat) :
    (A ++ [x, y]).getD (A.length + 2 - 1) 0 = y := by
  rw [List.getD_append_right _ _ _ _ (by omega)]
  have h1 : A.length + 2 - 1 - A.length = 1 := by omega
  rw [h1]
  rfl

theorem shiftE_lt256 {i : Nat} (hi : i < 8) : 1 <<< i < 256 := by
  rw [Nat.one_shiftLeft]
  calc 2 ^ i < 2 ^ 8 := Nat.pow_lt_pow_right (by norm_num) hi
  _ = 256 := by norm_num

theorem shiftE_ne0 (i : Nat) : 1 <<< i ≠ 0 := by
  rw [Nat.one_shiftLeft]
  exact (Nat.two_pow_pos i).ne'

theorem xor_byte_lt {a b : Nat} (ha : a < 256) (hb : b < 256) : a ^^^ b < 256 := by
  have e : (256 : Nat) = 2 ^ 8 := by norm_num
  rw [e] at ha hb ⊢
  exact Nat.xor_lt_two_pow ha hb

theorem validFrame_flip_msg {msg : List Nat} (hb : ∀ x ∈ msg, x < 256) {j i : Nat}
    (hj : j < msg.length) (hi : i < 8) :
    validFrame (flipBit j i (frameWithCRC msg)) = false := by
  have hc : calcCRC msg < 65536 := calcCRC_lt_of_bytes hb
  have hflip : flipBit j i (frameWithCRC msg) =
      (msg.set j (msg.getD j 0 ^^^ (1 <<< i))) ++
        [calcCRC msg &&& 255, (calcCRC msg >>> 8) &&& 255] := by
    unfold flipBit frameWithCRC
    rw [List.getD_append _ _ _ _ hj, List.set_append_left _ _ hj]
  rw [hflip]
  unfold validFrame
  have hlenset : (msg.set j (msg.getD j 0 ^^^ (1 <<< i))).length = msg.length := by simp
  rw [append2_length, append2_take, append2_getD_lo, append2_getD_hi,
    byte_recombine hc, beq_eq_false_iff_ne]
  have hsplit : msg.set j (msg.getD j 0 ^^^ (1 <<< i)) =
      msg.take j ++ (msg.getD j 0 ^^^ (1 <<< i)) :: msg.drop (j + 1) := by
    rw [List.set_eq_take_append_cons_drop, if_pos hj]
  have hmsg : msg = msg.take j ++ msg.getD j 0 :: msg.drop (j + 1) := by
    conv_lhs => rw [← List.take_append_drop j msg]
    rw [List.drop_eq_getElem_cons hj, ← List.getD_eq_getElem msg 0 hj]
  rw [hsplit]
  conv_rhs => rw [hmsg]
  exact calcCRC_flip_ne _ _ _ (lt_trans (shiftE_lt256 hi) (by norm_num)) (shiftE_ne0 i)

theorem validFrame_flip_lo {msg : List Nat} (hb : ∀ x ∈ msg, x < 256) {i : Nat}
    (hi : i < 8) :
    validFrame (flipBit msg.length i (frameWithCRC msg)) = false := by
  have hc : calcCRC msg < 65536 := calcCRC_lt_of_bytes hb
  have hflip : flipBit msg.length i (frameWithCRC msg) =
      msg ++ [(calcCRC msg &&& 255) ^^^ (1 <<< i), (calcCRC msg >>> 8) &&& 255] := by
    unfold flipBit frameWithCRC
    rw [List.getD_append_right _ _ _ _ (by omega), List.set_append_right _ _ (by omega)]
    have h0 : msg.length - msg.length = 0 := by omega
    rw [h0]
    rfl
  rw [hflip]
  unfold validFrame
  rw [append2_length, append2_take, append2_getD_lo, append2_getD_hi, beq_eq_false_iff_ne]
  intro heq
  have hrec : (calcCRC msg &&& 255) ||| (((calcCRC msg >>> 8) &&& 255) <<< 8) = calcCRC msg :=
    byte_recombine hc
  have hinj := or_shift_inj (and_255_lt _)
    (xor_byte_lt (and_255_lt _) (shiftE_lt256 hi)) (hrec.trans heq)
  exact absurd hinj.1.symm (xor_ne_self (shiftE_ne0 i))

theorem validFrame_flip_hi {msg : List Nat} (hb : ∀ x ∈ msg, x < 256) {i : Nat}
    (hi : i < 8) :
    validFrame (flipBit (msg.length + 1) i (frameWithCRC msg)) = false := by
  have hc : calcCRC msg < 65536 := calcCRC_lt_of_bytes hb
  have hflip : flipBit (msg.length + 1) i (frameWithCRC msg) =
      msg ++ [calcCRC msg &&& 255, ((calcCRC msg >>> 8) &&& 255) ^^^ (1 <<< i)] := by
    unfold flipBit frameWithCRC
    rw [List.getD_append_right _ _ _ _ (by omega), List.set_append_right _ _ (by omega)]
    have h1 : msg.length + 1 - msg.length = 1 := by omega
    rw [h1]
    rfl
  rw [hflip]
  unfold validFrame
  rw [append2_length, append2_take, append2_getD_lo, append2_getD_hi, beq_eq_false_iff_ne]
  intro heq
  have hrec : (calcCRC msg &&& 255) ||| (((calcCRC msg >>> 8) &&& 255) <<< 8) = calcCRC msg :=
    byte_recombine hc
  have hinj := or_shift_inj (and_255_lt _) (and_255_lt _) (hrec.trans heq)
  exact absurd hinj.2.symm (xor_ne_self (shiftE_ne0 i))

/-- C8: CRC round-trip — appending `calcCRC frame` to any byte frame and
re-validating always passes, and flipping any single bit anywhere in
`frame ‖ crc` always makes the validation fail. -/
theorem claim_C8_crc_roundtrip_bitflip (frame : List Nat) (j i : Nat)
    (hb : ∀ x ∈ frame, x < 256) (hj : j < frame.length + 2) (hi : i < 8) :
    validFrame (frameWithCRC frame) = true ∧
    validFrame (flipBit j i (frameWithCRC frame)) = false := by
  refine ⟨validFrame_frameWithCRC hb, ?_⟩
  by_cases h1 : j < frame.length
  · exact validFrame_flip_msg hb h1 hi
  · by_cases h2 : j = frame.length
    · rw [h2]
      exact validFrame_flip_lo hb hi
    · have h3 : j = frame.length + 1 := by omega
      rw [h3]
      exact validFrame_flip_hi hb hi

/-- C8 witness: the concrete frame `[1, 3, 7]` round-trips, and flipping
bit 0 of its first byte breaks validation. -/
theorem claim_C8_crc_roundtrip_bitflip_witness :
    validFrame (frameWithCRC [1, 3, 7]) = true ∧
    validFrame (flipBit 0 0 (frameWithCRC [1, 3, 7])) = false :=
  claim_C8_crc_roundtrip_bitflip [1, 3, 7] 0 0 (by decide) (by decide) (by decide)

/-- C9 witness: a single queued request on a capacity-1 queue still blocks
new submissions at every micro-step until its pop. -/
theorem claim_C9_inflight_occupies_slot_witness :
    (handleConnectionStep (fun _ => ⟨[1, 131, 224], 0⟩)
        ⟨⟨[⟨1, 3, [0], 5⟩], 1, 0, 2000, 0, -1, 2000, true, true⟩, .poll, []⟩).phase =
      .pulled ⟨1, 3, [0], 5⟩ ∧
    (handleConnectionStep (fun _ => ⟨[1, 131, 224], 0⟩)
        ⟨⟨[⟨1, 3, [0], 5⟩], 1, 0, 2000, 0, -1, 2000, true, true⟩, .poll, []⟩).cl =
      ⟨[⟨1, 3, [0], 5⟩], 1, 0, 2000, 0, -1, 2000, true, true⟩ ∧
    ((handleConnectionStep (fun _ => ⟨[1, 131, 224], 0⟩))^[2]
        ⟨⟨[⟨1, 3, [0], 5⟩], 1, 0, 2000, 0, -1, 2000, true, true⟩, .poll, []⟩).cl =
      ⟨[⟨1, 3, [0], 5⟩], 1, 0, 2000, 0, -1, 2000, true, true⟩ ∧
    ((handleConnectionStep (fun _ => ⟨[1, 131, 224], 0⟩))^[3]
        ⟨⟨[⟨1, 3, [0], 5⟩], 1, 0, 2000, 0, -1, 2000, true, true⟩, .poll, []⟩).cl =
      ⟨[⟨1, 3, [0], 5⟩], 1, 0, 2000, 0, -1, 2000, true, true⟩ ∧
    ((handleConnectionStep (fun _ => ⟨[1, 131, 224], 0⟩))^[4]
        ⟨⟨[⟨1, 3, [0], 5⟩], 1, 0, 2000, 0, -1, 2000, true, true⟩, .poll, []⟩).cl =
      ⟨[⟨1, 3, [0], 5⟩], 1, 0, 2000, 0, -1, 2000, true, true⟩ ∧
    ((handleConnectionStep (fun _ => ⟨[1, 131, 224], 0⟩))^[4]
        ⟨⟨[⟨1, 3, [0], 5⟩], 1, 0, 2000, 0, -1, 2000, true, true⟩, .poll, []⟩).events =
      [] ++ callbackEvents ⟨[⟨1, 3, [0], 5⟩], 1, 0, 2000, 0, -1, 2000, true, true⟩
        ⟨1, 3, [0], 5⟩ ((fun _ => (⟨[1, 131, 224], 0⟩ : RTUResponse)) (⟨1, 3, [0], 5⟩ : RTURequest)) ∧
    ((handleConnectionStep (fun _ => ⟨[1, 131, 224], 0⟩))^[5]
        ⟨⟨[⟨1, 3, [0], 5⟩], 1, 0, 2000, 0, -1, 2000, true, true⟩, .poll, []⟩).cl.requests = [] ∧
    ((handleConnectionStep (fun _ => ⟨[1, 131, 224], 0⟩))^[5]
        ⟨⟨[⟨1, 3, [0], 5⟩], 1, 0, 2000, 0, -1, 2000, true, true⟩, .poll, []⟩).events =
      [] ++ callbackEvents ⟨[⟨1, 3, [0], 5⟩], 1, 0, 2000, 0, -1, 2000, true, true⟩
        ⟨1, 3, [0], 5⟩ ((fun _ => (⟨[1, 131, 224], 0⟩ : RTUResponse)) (⟨1, 3, [0], 5⟩ : RTURequest)) ∧
    ((⟨[⟨1, 3, [0], 5⟩], 1, 0, 2000, 0, -1, 2000, true, true⟩ : ClientState).MR_qLimit ≤
        (⟨[⟨1, 3, [0], 5⟩], 1, 0, 2000, 0, -1, 2000, true, true⟩ : ClientState).requests.length →
      (addToQueue ((handleConnectionStep (fun _ => ⟨[1, 131, 224], 0⟩))^[4]
          ⟨⟨[⟨1, 3, [0], 5⟩], 1, 0, 2000, 0, -1, 2000, true, true⟩, .poll, []⟩).cl
        (some ⟨2, 4, [1], 6⟩)).1 = false) :=
  claim_C9_inflight_occupies_slot (fun _ => ⟨[1, 131, 224], 0⟩)
    ⟨[⟨1, 3, [0], 5⟩], 1, 0, 2000, 0, -1, 2000, true, true⟩
    ⟨1, 3, [0], 5⟩ [] [] ⟨2, 4, [1], 6⟩ rfl

end EModbus
